import Mathlib

/-!
Verification of `azure/table_azure_cosmosdb_mongo_collection.go` from the
`steampipe-plugin-azure` repository, against its natural-language design
specification.  The Go code is shallowly embedded: Go pointers (`*string`)
become `Option String`, remote calls and the host's stop signal become
explicit parameters of the function under scrutiny, a runtime panic
(nil-pointer dereference, out-of-range index) is recorded in an explicit
`panicked` flag, and `(interface\x7b\x7d, error)` return pairs become a record
with a result and an `Option String` error.
-/

namespace SteampipeAzure

/-- The slice of `documentdb.MongoDBCollectionGetResults` the embedded code
paths read: the list loop and the get hydrate only touch `ID`, `Name` and
`Location` (all `*string` in the SDK, hence `Option String` here). -/
structure MongoDBCollectionGetResults where
  ID : Option String
  Name : Option String
  Location : Option String
deriving Repr, DecidableEq

/-- The parent item handed to the list hydrate (`h.Item.(databaseAccountInfo)`);
the list function reads only its `Name` and `ResourceGroup` pointer fields. -/
structure databaseAccountInfo where
  Name : Option String
  ResourceGroup : Option String
deriving Repr, DecidableEq

/-- Embeds the `mongoCollectionInfo` struct of the table file (lines 14-21). -/
structure mongoCollectionInfo where
  MongoCollection : MongoDBCollectionGetResults
  Account : Option String
  Database : Option String
  Name : Option String
  ResourceGroup : Option String
  Location : Option String
deriving Repr, DecidableEq

/-- Outcome of a remote operation: Go's `(value, error)` convention. -/
inductive RemoteResult (α : Type) where
  | ok (a : α)
  | err (e : String)
deriving Repr, DecidableEq

/-- Modelled from the spec: the `toLower` transform (defined in
`azure/utils.go`, which is not under `src/`) lower-cases string column
values; embedded as character-wise lower-casing. -/
def toLower (s : String) : String := ⟨s.data.map Char.toLower⟩

/-- Modelled from the spec: `isNotFoundError` (defined in `azure/utils.go`,
not under `src/`) builds a predicate reporting whether a remote error's code
is among the given not-found codes. -/
def isNotFoundError (notFoundErrors : List String) (errCode : String) : Bool :=
  notFoundErrors.contains errCode

/-- The `ShouldIgnoreErrorFunc` installed by the table's `GetConfig`
(line 33): `isNotFoundError([]string\x7b"ResourceNotFound", "NotFound"\x7d)`. -/
def shouldIgnoreGetError (errCode : String) : Bool :=
  isNotFoundError ["ResourceNotFound", "NotFound"] errCode

/-- Helper for `goSplit`: splits the remaining characters at every
occurrence of `sep`, `acc` holding the reversed characters of the part
being accumulated. -/
def splitCharAux (sep : Char) : List Char → List Char → List String
  | [], acc => [String.mk acc.reverse]
  | c :: cs, acc =>
    if c = sep then String.mk acc.reverse :: splitCharAux sep cs []
    else splitCharAux sep cs (c :: acc)

/-- Go's `strings.Split(s, sep)` for a one-character separator (the source
only splits on `"/"`): cuts `s` at every occurrence of `sep`; the empty
string yields `[""]`, and adjacent separators yield empty parts, exactly as
in Go. -/
def goSplit (s : String) (sep : Char) : List String :=
  splitCharAux sep s.data []

/-- Embeds line 177, `&strings.Split(string(*mongoCollection.ID), "/")[4]`:
the 0-indexed 4th slash-delimited segment of the item's own resource ID.
Go panics when the `ID` pointer is nil or when the split yields fewer than
5 parts; the embedding is total, with `none` marking those panics. -/
def extractResourceGroup (id : Option String) : Option String :=
  match id with
  | none => none
  | some s => (goSplit s '/').get? 4

/-- The value of the `region` column for an emitted row:
`transform.FromField("Location").Transform(toLower)` (lines 135-140). -/
def regionColumn (info : mongoCollectionInfo) : Option String :=
  info.Location.map toLower

/-- The value of the `resource_group` column for an emitted row:
`transform.FromField("ResourceGroup").Transform(toLower)` (lines 141-146). -/
def resourceGroupColumn (info : mongoCollectionInfo) : Option String :=
  info.ResourceGroup.map toLower

/-- The external world as seen by one invocation of the list function:
the outcome of `GetNewSession`, the outcome of `ListMongoDBCollections`
(whose `Value` field is a nilable slice pointer, hence `Option List`), and
the host's stop signal `d.RowsRemaining(ctx) == 0`, given as a function of
the number of rows streamed so far in this invocation. -/
structure ListEnv where
  session : RemoteResult Unit
  listCall : RemoteResult (Option (List MongoDBCollectionGetResults))
  rowsRemainingZero : Nat → Bool

/-- Observable outcome of one list invocation: the rows streamed through
`d.StreamLeafListItem`, the returned error, whether a session was opened,
whether the remote list call was issued, and whether the Go code panicked. -/
structure ListOutput where
  rows : List mongoCollectionInfo
  err : Option String
  sessionOpened : Bool
  listCallMade : Bool
  /-- When the remote list call is issued, the `(resourceGroup, accountName,
  databaseName)` arguments it is issued with (line 171). -/
  listCallArgs : Option (String × String × String)
  panicked : Bool
deriving Repr, DecidableEq

/-- The streaming loop of lines 176-185.  `streamed` counts rows already
streamed in this invocation; after each streamed row the stop signal is
consulted and, when set, the loop returns at once.  The second component
records a panic in the resource-group extraction (nil `ID` or short split),
in which case rows streamed before the offending item stay streamed. -/
def streamItems (accountName : Option String) (databaseName : String)
    (stop : Nat → Bool) :
    Nat → List MongoDBCollectionGetResults → List mongoCollectionInfo × Bool
  | _, [] => ([], false)
  | streamed, item :: rest =>
    match extractResourceGroup item.ID with
    | none => ([], true)
    | some rg =>
      let row : mongoCollectionInfo :=
        { MongoCollection := item, Account := accountName,
          Database := some databaseName, Name := item.Name,
          ResourceGroup := some rg, Location := item.Location }
      if stop (streamed + 1) then ([row], false)
      else
        let rec_tail := streamItems accountName databaseName stop (streamed + 1) rest
        (row :: rec_tail.1, rec_tail.2)

/-- Embeds `listCosmosDBMongoCollections` (lines 153-188).  The empty
database-name qual short-circuits before anything else; a session failure or
a list-call failure is returned as the invocation's error; dereferencing the
parent account's `ResourceGroup`/`Name` pointers at the call site (line 171)
or the result's `Value` pointer (line 176) panics when nil; otherwise the
items are streamed by `streamItems` and the function returns no error. -/
def listCosmosDBMongoCollections (env : ListEnv)
    (account : databaseAccountInfo) (databaseName : String) : ListOutput :=
  if databaseName = "" then
    { rows := [], err := none, sessionOpened := false,
      listCallMade := false, listCallArgs := none, panicked := false }
  else
    match env.session with
    | .err e =>
      { rows := [], err := some e, sessionOpened := true,
        listCallMade := false, listCallArgs := none, panicked := false }
    | .ok _ =>
      match account.ResourceGroup, account.Name with
      | some rg, some acctName =>
        match env.listCall with
        | .err e =>
          { rows := [], err := some e, sessionOpened := true,
            listCallMade := true, listCallArgs := some (rg, acctName, databaseName),
            panicked := false }
        | .ok none =>
          { rows := [], err := none, sessionOpened := true,
            listCallMade := true, listCallArgs := some (rg, acctName, databaseName),
            panicked := true }
        | .ok (some items) =>
          let p := streamItems account.Name databaseName
            env.rowsRemainingZero 0 items
          { rows := p.1, err := none, sessionOpened := true,
            listCallMade := true, listCallArgs := some (rg, acctName, databaseName),
            panicked := p.2 }
      | _, _ =>
        { rows := [], err := none, sessionOpened := true,
          listCallMade := false, listCallArgs := none, panicked := true }

/-- The external world as seen by one invocation of the get hydrate. -/
structure GetEnv where
  session : RemoteResult Unit
  getCall : RemoteResult MongoDBCollectionGetResults

/-- Observable outcome of one get invocation. -/
structure GetOutput where
  result : Option mongoCollectionInfo
  err : Option String
  sessionOpened : Bool
  getCallMade : Bool
  /-- When the remote get call is issued, the `(resourceGroup, accountName,
  databaseName, name)` arguments it is issued with (line 216). -/
  getCallArgs : Option (String × String × String × String)
deriving Repr, DecidableEq

/-- Embeds `getCosmosDBMongoCollection` (lines 192-222).  Go's `len` on a
string is its UTF-8 byte length, so the precondition of line 203 uses
`String.utf8ByteSize`. -/
def getCosmosDBMongoCollection (env : GetEnv) (name resourceGroup
    accountName databaseName : String) : GetOutput :=
  if accountName.utf8ByteSize < 3 ∨ resourceGroup.utf8ByteSize < 1 then
    { result := none, err := none, sessionOpened := false,
      getCallMade := false, getCallArgs := none }
  else
    match env.session with
    | .err e =>
      { result := none, err := some e, sessionOpened := true,
        getCallMade := false, getCallArgs := none }
    | .ok _ =>
      match env.getCall with
      | .err e =>
        { result := none, err := some e, sessionOpened := true,
          getCallMade := true,
          getCallArgs := some (resourceGroup, accountName, databaseName, name) }
      | .ok r =>
        { result := some
            { MongoCollection := r, Account := some accountName,
              Database := some databaseName, Name := r.Name,
              ResourceGroup := some resourceGroup, Location := r.Location },
          err := none, sessionOpened := true, getCallMade := true,
          getCallArgs := some (resourceGroup, accountName, databaseName, name) }

/-! ### Concrete fixtures, used to evaluate the definitions on explicit
inputs (witnesses and counterexamples). -/

/-- A collection item with a well-formed, lower-case resource ID. -/
def itemA : MongoDBCollectionGetResults :=
  { ID := some "/subscriptions/sub1/resourceGroups/rg1/providers/collA",
    Name := some "collA", Location := some "EastUS" }

/-- A second well-formed item. -/
def itemB : MongoDBCollectionGetResults :=
  { ID := some "/subscriptions/sub1/resourceGroups/rg2/providers/collB",
    Name := some "collB", Location := some "westus" }

/-- A third item whose resource ID is nil: touching it panics. -/
def itemBad : MongoDBCollectionGetResults :=
  { ID := none, Name := some "collC", Location := some "EastUS2" }

/-- An item whose resource ID carries an upper-case resource-group segment
(`"RG1"`), different from the parent account's resource group. -/
def itemUpper : MongoDBCollectionGetResults :=
  { ID := some "/subscriptions/sub1/resourceGroups/RG1/providers/collU",
    Name := some "collU", Location := some "EastUS" }

/-- A parent account whose resource group differs from every item's. -/
def acctParent : databaseAccountInfo :=
  { Name := some "acc1", ResourceGroup := some "parent-rg" }

/-- The same account under a differently-named resource-group reference. -/
def acctOther : databaseAccountInfo :=
  { Name := some "acc1", ResourceGroup := some "other-rg" }

/-- The row the enumerator streams for `itemA` under `acctParent`, `"db1"`. -/
def rowA : mongoCollectionInfo :=
  { MongoCollection := itemA, Account := some "acc1", Database := some "db1",
    Name := some "collA", ResourceGroup := some "rg1", Location := some "EastUS" }

/-- The row the enumerator streams for `itemUpper` under `acctParent`,
`"db1"`: its `ResourceGroup` field holds the raw segment `"RG1"`. -/
def rowUpper : mongoCollectionInfo :=
  { MongoCollection := itemUpper, Account := some "acc1", Database := some "db1",
    Name := some "collU", ResourceGroup := some "RG1", Location := some "EastUS" }

/-- A stop signal that never fires. -/
def stopNever : Nat → Bool := fun _ => false

/-- A stop signal that fires right after the second streamed row. -/
def stopAfterTwo : Nat → Bool := fun n => n == 2

/-- A stop signal that is already set before any row is streamed. -/
def stopAlways : Nat → Bool := fun _ => true

/-- Healthy world: three items (the third one un-processable), stop after
the second row — the spec's own example. -/
def envThree : ListEnv :=
  { session := .ok (), listCall := .ok (some [itemA, itemB, itemBad]),
    rowsRemainingZero := stopAfterTwo }

/-- Healthy world returning the single upper-case-segment item. -/
def envUpper : ListEnv :=
  { session := .ok (), listCall := .ok (some [itemUpper]),
    rowsRemainingZero := stopNever }

/-- Healthy world returning one item, with the stop signal already set. -/
def envStopNow : ListEnv :=
  { session := .ok (), listCall := .ok (some [itemA]),
    rowsRemainingZero := stopAlways }

/-- A world where opening the session fails. -/
def envSessionFail : ListEnv :=
  { session := .err "auth failed", listCall := .ok (some [itemA]),
    rowsRemainingZero := stopNever }

/-- A world where the remote list call fails. -/
def envListFail : ListEnv :=
  { session := .ok (), listCall := .err "list failed",
    rowsRemainingZero := stopNever }

/-- Healthy world for the get hydrate. -/
def getEnvOk : GetEnv := { session := .ok (), getCall := .ok itemA }

/-- A world where the remote get call fails with an unclassified code. -/
def getEnvFail : GetEnv := { session := .ok (), getCall := .err "SomeOtherError" }

end SteampipeAzure

namespace SteampipeAzure

/-! ### Structural lemmas about the streaming loop -/

/-- Every row the loop streams carries the parent account name, the filter's
database name, and the item's own name, location and extracted resource
group. -/
theorem streamItems_mem (a : Option String) (db : String) (stop : Nat → Bool) :
    ∀ (items : List MongoDBCollectionGetResults) (n : Nat)
      (row : mongoCollectionInfo), row ∈ (streamItems a db stop n items).1 →
      row.Account = a ∧ row.Database = some db ∧
      row.Name = row.MongoCollection.Name ∧
      row.Location = row.MongoCollection.Location ∧
      row.ResourceGroup = extractResourceGroup row.MongoCollection.ID := by
  intro items
  induction items with
  | nil => intro n row h; simp [streamItems] at h
  | cons item rest ih =>
    intro n row h
    rw [streamItems] at h
    cases hrg : extractResourceGroup item.ID with
    | none => rw [hrg] at h; simp at h
    | some rg =>
      rw [hrg] at h
      by_cases hs : stop (n + 1)
      · simp only [if_pos hs, List.mem_singleton] at h
        subst h
        exact ⟨rfl, rfl, rfl, rfl, hrg.symm⟩
      · simp only [if_neg hs, List.mem_cons] at h
        rcases h with h | h
        · subst h
          exact ⟨rfl, rfl, rfl, rfl, hrg.symm⟩
        · exact ih (n + 1) row h

/-- When the stop signal never fires and every item's ID extracts, the loop
streams one row per item, in order, and does not panic. -/
theorem streamItems_no_stop (a : Option String) (db : String)
    (stop : Nat → Bool) (hstop : ∀ n, stop n = false) :
    ∀ (items : List MongoDBCollectionGetResults) (n : Nat),
      (∀ item ∈ items, (extractResourceGroup item.ID).isSome) →
      (streamItems a db stop n items).1.length = items.length ∧
      (streamItems a db stop n items).2 = false := by
  intro items
  induction items with
  | nil => intro n _; simp [streamItems]
  | cons item rest ih =>
    intro n hvalid
    have hhead : (extractResourceGroup item.ID).isSome :=
      hvalid item (List.mem_cons_self item rest)
    cases hrg : extractResourceGroup item.ID with
    | none => rw [hrg] at hhead; simp at hhead
    | some rg =>
      have htail := ih (n + 1) (fun it hit => hvalid it (List.mem_cons_of_mem item hit))
      simp only [streamItems, hrg]
      rw [hstop (n + 1), if_neg Bool.false_ne_true]
      simp only [List.length_cons]
      exact ⟨by rw [htail.1], htail.2⟩

/-- When the stop signal first fires after the `k`-th streamed row
(`1 ≤ k ≤ items.length`), the loop streams exactly `k` rows and does not
panic; only the first `k` items need a well-formed ID, the later ones are
never touched. -/
theorem streamItems_stop_at (a : Option String) (db : String)
    (stop : Nat → Bool) :
    ∀ (items : List MongoDBCollectionGetResults) (k n : Nat),
      1 ≤ k → k ≤ items.length →
      (∀ j, 1 ≤ j → j < k → stop (n + j) = false) → stop (n + k) = true →
      (∀ item ∈ items.take k, (extractResourceGroup item.ID).isSome) →
      (streamItems a db stop n items).1.length = k ∧
      (streamItems a db stop n items).2 = false := by
  intro items
  induction items with
  | nil => intro k n hk1 hk2 _ _ _; simp at hk2; omega
  | cons item rest ih =>
    intro k n hk1 hk2 hbefore hat hvalid
    have hhead : (extractResourceGroup item.ID).isSome := by
      apply hvalid item
      cases k with
      | zero => omega
      | succ k => simp [List.take_succ_cons]
    cases hrg : extractResourceGroup item.ID with
    | none => rw [hrg] at hhead; simp at hhead
    | some rg =>
      cases k with
      | zero => omega
      | succ k =>
        cases k with
        | zero =>
          have hat1 : stop (n + 1) = true := hat
          simp [streamItems, hrg, hat1]
        | succ k =>
          have hfirst : stop (n + 1) = false := hbefore 1 (by omega) (by omega)
          simp only [streamItems, hrg]
          rw [hfirst, if_neg Bool.false_ne_true]
          have htail := ih (k + 1) (n + 1) (by omega)
            (by simpa using hk2)
            (fun j hj1 hj2 => by
              have := hbefore (j + 1) (by omega) (by omega)
              simpa [Nat.add_assoc, Nat.add_comm 1 j] using this)
            (by
              have := hat
              simpa [Nat.add_assoc, Nat.add_comm 1 (k + 1)] using this)
            (fun it hit => hvalid it (by
              simp only [List.take_succ_cons, List.mem_cons]
              exact Or.inr hit))
          simp only [List.length_cons]
          exact ⟨by rw [htail.1], htail.2⟩

/-- `Char.toLower` maps the basic-latin upper-case range into the lower-case
range and is the identity elsewhere, so applying it twice is the same as
applying it once. -/
theorem char_toLower_toLower (c : Char) : c.toLower.toLower = c.toLower := by
  show Char.toLower (Char.toLower c) = Char.toLower c
  unfold Char.toLower
  by_cases h : c.toNat >= 65 ∧ c.toNat <= 90
  · rw [if_pos h]
    have hvalid : Nat.isValidChar (c.toNat + 32) := Or.inl (by omega)
    have htn : (Char.ofNat (c.toNat + 32)).toNat = c.toNat + 32 := by
      rw [Char.ofNat, dif_pos hvalid]
      rfl
    rw [htn, if_neg (by omega)]
  · rw [if_neg h, if_neg h]

/-- The modelled `toLower` transform is idempotent. -/
theorem toLower_toLower (s : String) : toLower (toLower s) = toLower s := by
  unfold toLower
  simp only [List.map_map]
  exact congrArg String.mk (List.map_congr_left fun c _ => char_toLower_toLower c)

/-- When the first item's ID extracts, the loop streams at least one row no
matter what the stop signal says: the signal is only consulted after a row
has been streamed. -/
theorem streamItems_head (a : Option String) (db : String) (stop : Nat → Bool)
    (item : MongoDBCollectionGetResults) (rest : List MongoDBCollectionGetResults)
    (n : Nat) (hhead : (extractResourceGroup item.ID).isSome) :
    1 ≤ (streamItems a db stop n (item :: rest)).1.length := by
  cases hrg : extractResourceGroup item.ID with
  | none => rw [hrg] at hhead; simp at hhead
  | some rg =>
    simp only [streamItems, hrg]
    by_cases hs : stop (n + 1)
    · rw [if_pos hs]; simp
    · rw [if_neg hs]; simp

end SteampipeAzure

namespace SteampipeAzure

/-! ### Branch lemmas for the two embedded functions -/

/-- A non-empty string has UTF-8 byte length at least 1 (Go's `len`). -/
theorem one_le_utf8ByteSize (s : String) (h : s ≠ "") : 1 ≤ s.utf8ByteSize := by
  obtain ⟨l⟩ := s
  cases l with
  | nil => exact absurd rfl h
  | cons c cs =>
    show 1 ≤ String.utf8ByteSize.go (c :: cs)
    have := Char.utf8Size_pos c
    simp only [String.utf8ByteSize.go]
    omega

/-- On the healthy path (non-empty filter, session and list call succeed,
parent pointers non-nil) the list function returns exactly what the
streaming loop produces, with no error. -/
theorem listCosmos_ok (env : ListEnv) (account : databaseAccountInfo)
    (databaseName : String) (items : List MongoDBCollectionGetResults)
    (rgp acctName : String)
    (hdb : databaseName ≠ "") (hsess : env.session = .ok ())
    (hrg : account.ResourceGroup = some rgp) (hname : account.Name = some acctName)
    (hlist : env.listCall = .ok (some items)) :
    listCosmosDBMongoCollections env account databaseName =
      { rows := (streamItems account.Name databaseName env.rowsRemainingZero 0 items).1,
        err := none, sessionOpened := true, listCallMade := true,
        listCallArgs := some (rgp, acctName, databaseName),
        panicked := (streamItems account.Name databaseName env.rowsRemainingZero 0 items).2 } := by
  unfold listCosmosDBMongoCollections
  rw [if_neg hdb, hsess, hrg, hname, hlist]

/-- A session failure is returned as the invocation's error, before any
remote list call. -/
theorem listCosmos_session_err (env : ListEnv) (account : databaseAccountInfo)
    (databaseName e : String)
    (hdb : databaseName ≠ "") (hsess : env.session = .err e) :
    listCosmosDBMongoCollections env account databaseName =
      { rows := [], err := some e, sessionOpened := true,
        listCallMade := false, listCallArgs := none, panicked := false } := by
  unfold listCosmosDBMongoCollections
  rw [if_neg hdb, hsess]

/-- A list-call failure is returned as the invocation's error, with no rows
streamed. -/
theorem listCosmos_list_err (env : ListEnv) (account : databaseAccountInfo)
    (databaseName e rgp acctName : String)
    (hdb : databaseName ≠ "") (hsess : env.session = .ok ())
    (hrg : account.ResourceGroup = some rgp) (hname : account.Name = some acctName)
    (hlist : env.listCall = .err e) :
    listCosmosDBMongoCollections env account databaseName =
      { rows := [], err := some e, sessionOpened := true,
        listCallMade := true, listCallArgs := some (rgp, acctName, databaseName),
        panicked := false } := by
  unfold listCosmosDBMongoCollections
  rw [if_neg hdb, hsess, hrg, hname, hlist]

/-- Every row the list function ever streams is built from one returned item
plus the ambient context: account name, database name, and the resource
group extracted from the item's own ID. -/
theorem listCosmos_rows_shape (env : ListEnv) (account : databaseAccountInfo)
    (databaseName : String) (row : mongoCollectionInfo)
    (hrow : row ∈ (listCosmosDBMongoCollections env account databaseName).rows) :
    row.Account = account.Name ∧ row.Database = some databaseName ∧
    row.Name = row.MongoCollection.Name ∧
    row.Location = row.MongoCollection.Location ∧
    row.ResourceGroup = extractResourceGroup row.MongoCollection.ID := by
  unfold listCosmosDBMongoCollections at hrow
  split at hrow
  · simp at hrow
  · split at hrow
    · simp at hrow
    · split at hrow
      · split at hrow
        · simp at hrow
        · simp at hrow
        · exact streamItems_mem _ _ _ _ _ _ hrow
      · simp at hrow

/-- The streamed rows do not depend on the parent account's resource group:
two accounts with the same name (and non-nil resource-group pointers)
produce identical rows from the same remote results. -/
theorem listCosmos_rows_parent_rg_irrelevant (env : ListEnv)
    (acc1 acc2 : databaseAccountInfo) (databaseName : String)
    (hname : acc1.Name = acc2.Name)
    (h1 : acc1.ResourceGroup.isSome) (h2 : acc2.ResourceGroup.isSome) :
    (listCosmosDBMongoCollections env acc1 databaseName).rows =
    (listCosmosDBMongoCollections env acc2 databaseName).rows := by
  obtain ⟨r1, hr1⟩ := Option.isSome_iff_exists.mp h1
  obtain ⟨r2, hr2⟩ := Option.isSome_iff_exists.mp h2
  unfold listCosmosDBMongoCollections
  by_cases hdb : databaseName = ""
  · simp only [if_pos hdb]
  · simp only [if_neg hdb]
    cases hsess : env.session with
    | err e => rfl
    | ok u =>
      cases u
      rw [hr1, hr2, ← hname]
      cases hn : acc1.Name with
      | none => rfl
      | some nm =>
        cases env.listCall with
        | err e => rfl
        | ok v =>
          cases v with
          | none => rfl
          | some items => rfl

end SteampipeAzure

namespace SteampipeAzure

/-! ### Claim theorems -/

/-- C1: for a remote list call returning N items, the list function streams
exactly N rows and returns no error when the stop signal never fires, and
streams exactly k ≤ N rows and returns no error when the stop signal first
fires after the k-th streamed row; items after the k-th are never processed
(only the first k items need a well-formed resource ID). -/
theorem enumerator_row_count (env : ListEnv) (account : databaseAccountInfo)
    (databaseName : String) (items : List MongoDBCollectionGetResults)
    (rgp acctName : String)
    (hdb : databaseName ≠ "") (hsess : env.session = .ok ())
    (hrg : account.ResourceGroup = some rgp)
    (hname : account.Name = some acctName)
    (hlist : env.listCall = .ok (some items)) :
    ((∀ n, env.rowsRemainingZero n = false) →
      (∀ item ∈ items, (extractResourceGroup item.ID).isSome) →
      (listCosmosDBMongoCollections env account databaseName).rows.length
        = items.length ∧
      (listCosmosDBMongoCollections env account databaseName).err = none) ∧
    (∀ k, 1 ≤ k → k ≤ items.length →
      (∀ j, 1 ≤ j → j < k → env.rowsRemainingZero j = false) →
      env.rowsRemainingZero k = true →
      (∀ item ∈ items.take k, (extractResourceGroup item.ID).isSome) →
      (listCosmosDBMongoCollections env account databaseName).rows.length = k ∧
      (listCosmosDBMongoCollections env account databaseName).err = none) := by
  have hopen := listCosmos_ok env account databaseName items rgp acctName
    hdb hsess hrg hname hlist
  constructor
  · intro hstop hvalid
    rw [hopen]
    exact ⟨(streamItems_no_stop account.Name databaseName env.rowsRemainingZero
      hstop items 0 hvalid).1, rfl⟩
  · intro k hk1 hk2 hbefore hat hvalid
    rw [hopen]
    refine ⟨(streamItems_stop_at account.Name databaseName env.rowsRemainingZero
      items k 0 hk1 hk2 ?_ ?_ hvalid).1, rfl⟩
    · intro j hj1 hj2
      rw [Nat.zero_add]
      exact hbefore j hj1 hj2
    · rw [Nat.zero_add]
      exact hat

/-- Witness for C1, the spec's own example: three items returned, the stop
signal set right after the second streamed row — exactly 2 rows, no error
(the third item is the un-processable `itemBad` and is indeed untouched). -/
theorem enumerator_row_count_witness :
    (listCosmosDBMongoCollections envThree acctParent "db1").rows.length = 2 ∧
    (listCosmosDBMongoCollections envThree acctParent "db1").err = none :=
  (enumerator_row_count envThree acctParent "db1" [itemA, itemB, itemBad]
      "parent-rg" "acc1" (by decide) rfl rfl rfl rfl).2 2 (by decide) (by decide)
    (fun j hj1 hj2 => by
      have hj : j = 1 := by omega
      subst hj
      rfl)
    rfl (by decide)

/-- C2, counterexample: the claim says the emitted row's `resource_group`
column equals the raw 5th slash-delimited segment of the item's own resource
ID, but the column transform lower-cases it: for an item whose segment is
`"RG1"` the column holds `"rg1"`. -/
theorem resource_group_column_raw_segment_cex :
    ¬ (∀ row ∈ (listCosmosDBMongoCollections envUpper acctParent "db1").rows,
        resourceGroupColumn row = extractResourceGroup row.MongoCollection.ID) := by
  decide

/-- C2 (amended): the emitted row's `resource_group` column equals the
lower-cased 5th slash-delimited segment of the item's own resource ID (the
raw segment is stored on the row, and the column transform applies
`toLower`), not the parent account's resource group — the streamed rows are
unchanged when only the parent's resource group changes. -/
theorem resource_group_from_item_id :
    (∀ (env : ListEnv) (account : databaseAccountInfo) (databaseName : String),
      ∀ row ∈ (listCosmosDBMongoCollections env account databaseName).rows,
        row.ResourceGroup = extractResourceGroup row.MongoCollection.ID ∧
        resourceGroupColumn row
          = (extractResourceGroup row.MongoCollection.ID).map toLower) ∧
    (∀ (env : ListEnv) (acc1 acc2 : databaseAccountInfo) (databaseName : String),
      acc1.Name = acc2.Name →
      acc1.ResourceGroup.isSome → acc2.ResourceGroup.isSome →
      (listCosmosDBMongoCollections env acc1 databaseName).rows =
      (listCosmosDBMongoCollections env acc2 databaseName).rows) := by
  constructor
  · intro env account databaseName row hrow
    have h := listCosmos_rows_shape env account databaseName row hrow
    refine ⟨h.2.2.2.2, ?_⟩
    rw [resourceGroupColumn, h.2.2.2.2]
  · exact listCosmos_rows_parent_rg_irrelevant

/-- Witness for the amended C2 at the upper-case-segment item: the column
holds `"rg1"`, the lower-casing of the item's own segment `"RG1"`, and the
rows are the same under the `"parent-rg"` and `"other-rg"` parents. -/
theorem resource_group_from_item_id_witness :
    (rowUpper.ResourceGroup = extractResourceGroup rowUpper.MongoCollection.ID ∧
      resourceGroupColumn rowUpper
        = (extractResourceGroup rowUpper.MongoCollection.ID).map toLower) ∧
    (listCosmosDBMongoCollections envUpper acctParent "db1").rows =
      (listCosmosDBMongoCollections envUpper acctOther "db1").rows :=
  ⟨resource_group_from_item_id.1 envUpper acctParent "db1" rowUpper (by decide),
   resource_group_from_item_id.2 envUpper acctParent acctOther "db1" rfl
     (by decide) (by decide)⟩

/-- C3: an empty `database_name` qual makes the list function return zero
rows and no error without opening a session or issuing the remote list
call. -/
theorem empty_filter_short_circuit (env : ListEnv)
    (account : databaseAccountInfo) (databaseName : String)
    (hdb : databaseName = "") :
    listCosmosDBMongoCollections env account databaseName =
      { rows := [], err := none, sessionOpened := false,
        listCallMade := false, listCallArgs := none, panicked := false } := by
  unfold listCosmosDBMongoCollections
  rw [if_pos hdb]

/-- Witness for C3 at a concrete world that would otherwise stream rows. -/
theorem empty_filter_short_circuit_witness :
    listCosmosDBMongoCollections envThree acctParent "" =
      { rows := [], err := none, sessionOpened := false,
        listCallMade := false, listCallArgs := none, panicked := false } :=
  empty_filter_short_circuit envThree acctParent "" rfl

/-- C4: an account name shorter than 3 bytes or an empty resource group
makes the get hydrate return no result and no error, without opening a
session or issuing the remote get call. -/
theorem lookup_precondition_short_circuit (env : GetEnv)
    (name resourceGroup accountName databaseName : String)
    (h : accountName.utf8ByteSize < 3 ∨ resourceGroup = "") :
    getCosmosDBMongoCollection env name resourceGroup accountName databaseName =
      { result := none, err := none, sessionOpened := false,
        getCallMade := false, getCallArgs := none } := by
  have hc : accountName.utf8ByteSize < 3 ∨ resourceGroup.utf8ByteSize < 1 := by
    rcases h with h | h
    · exact Or.inl h
    · subst h
      exact Or.inr (by decide)
  unfold getCosmosDBMongoCollection
  rw [if_pos hc]

/-- Witness for C4, the spec's own example: `account="ab"` (length 2 < 3),
`resourceGroup="rg1"`, `database="db1"`, `collection="c1"`. -/
theorem lookup_precondition_short_circuit_witness :
    getCosmosDBMongoCollection getEnvOk "c1" "rg1" "ab" "db1" =
      { result := none, err := none, sessionOpened := false,
        getCallMade := false, getCallArgs := none } :=
  lookup_precondition_short_circuit getEnvOk "c1" "rg1" "ab" "db1"
    (Or.inl (by decide))

/-- C5: the `region` column of every emitted row is the lower-cased form of
the item's location, and the lower-casing transform is idempotent (so the
output is the same regardless of the input's casing). -/
theorem region_column_lowercase :
    (∀ (env : ListEnv) (account : databaseAccountInfo) (databaseName : String),
      ∀ row ∈ (listCosmosDBMongoCollections env account databaseName).rows,
        regionColumn row = row.MongoCollection.Location.map toLower) ∧
    (∀ s, toLower (toLower s) = toLower s) := by
  constructor
  · intro env account databaseName row hrow
    have h := listCosmos_rows_shape env account databaseName row hrow
    rw [regionColumn, h.2.2.2.1]
  · exact toLower_toLower

/-- Witness for C5 at the row streamed for `itemA` (location `"EastUS"`):
the region column holds `"eastus"`. -/
theorem region_column_lowercase_witness :
    regionColumn rowA = rowA.MongoCollection.Location.map toLower ∧
    toLower (toLower "EastUS") = toLower "EastUS" :=
  ⟨region_column_lowercase.1 envThree acctParent "db1" rowA (by decide),
   region_column_lowercase.2 "EastUS"⟩

/-- C6: with a non-empty filter, a session failure or a list-call failure is
surfaced to the caller as the invocation's error, with zero rows streamed
(no partial rows after the failure point). -/
theorem enumerator_error_propagation (env : ListEnv)
    (account : databaseAccountInfo) (databaseName : String)
    (hdb : databaseName ≠ "") :
    (∀ e, env.session = .err e →
      listCosmosDBMongoCollections env account databaseName =
        { rows := [], err := some e, sessionOpened := true,
          listCallMade := false, listCallArgs := none, panicked := false }) ∧
    (∀ e rgp acctName, env.session = .ok () →
      account.ResourceGroup = some rgp → account.Name = some acctName →
      env.listCall = .err e →
      listCosmosDBMongoCollections env account databaseName =
        { rows := [], err := some e, sessionOpened := true,
          listCallMade := true,
          listCallArgs := some (rgp, acctName, databaseName),
          panicked := false }) := by
  constructor
  · intro e hsess
    exact listCosmos_session_err env account databaseName e hdb hsess
  · intro e rgp acctName hsess hrg hname hlist
    exact listCosmos_list_err env account databaseName e rgp acctName
      hdb hsess hrg hname hlist

/-- Witness for C6 at an authentication failure and at a list-call
failure. -/
theorem enumerator_error_propagation_witness :
    listCosmosDBMongoCollections envSessionFail acctParent "db1" =
      { rows := [], err := some "auth failed", sessionOpened := true,
        listCallMade := false, listCallArgs := none, panicked := false } ∧
    listCosmosDBMongoCollections envListFail acctParent "db1" =
      { rows := [], err := some "list failed", sessionOpened := true,
        listCallMade := true, listCallArgs := some ("parent-rg", "acc1", "db1"),
        panicked := false } :=
  ⟨(enumerator_error_propagation envSessionFail acctParent "db1"
      (by decide)).1 "auth failed" rfl,
   (enumerator_error_propagation envListFail acctParent "db1"
      (by decide)).2 "list failed" "parent-rg" "acc1" rfl rfl rfl rfl⟩

/-- C7: the table's ignore-configuration classifies exactly the error codes
`"ResourceNotFound"` and `"NotFound"` as ignorable absence, while the get
hydrate returns every remote get failure to the caller as an error. -/
theorem get_error_classification :
    (∀ errCode, shouldIgnoreGetError errCode = true ↔
      (errCode = "ResourceNotFound" ∨ errCode = "NotFound")) ∧
    (∀ (env : GetEnv) (name resourceGroup accountName databaseName e : String),
      3 ≤ accountName.utf8ByteSize → 1 ≤ resourceGroup.utf8ByteSize →
      env.session = .ok () → env.getCall = .err e →
      (getCosmosDBMongoCollection env name resourceGroup
          accountName databaseName).err = some e ∧
      (getCosmosDBMongoCollection env name resourceGroup
          accountName databaseName).result = none) := by
  constructor
  · intro errCode
    simp [shouldIgnoreGetError, isNotFoundError, List.contains, List.elem_eq_mem]
  · intro env name resourceGroup accountName databaseName e h1 h2 hsess hget
    unfold getCosmosDBMongoCollection
    rw [if_neg (by omega), hsess, hget]
    exact ⟨rfl, rfl⟩

/-- Witness for C7: the two not-found codes are ignorable, an unclassified
code is not, and a failing get call surfaces its error. -/
theorem get_error_classification_witness :
    (shouldIgnoreGetError "NotFound" = true ↔
      ("NotFound" = "ResourceNotFound" ∨ "NotFound" = "NotFound")) ∧
    (getCosmosDBMongoCollection getEnvFail "c1" "rg1" "acc" "db1").err
      = some "SomeOtherError" ∧
    (getCosmosDBMongoCollection getEnvFail "c1" "rg1" "acc" "db1").result
      = none :=
  ⟨get_error_classification.1 "NotFound",
   get_error_classification.2 getEnvFail "c1" "rg1" "acc" "db1"
     "SomeOtherError" (by decide) (by decide) rfl rfl⟩

/-- C8: the resource-group extraction of the list loop succeeds exactly when
the item's resource ID is non-nil and splits into at least 5 slash-delimited
segments; outside this precondition the extraction hits its error branch
(the Go code's panic). -/
theorem extract_resource_group_domain (id : Option String) :
    (extractResourceGroup id).isSome ↔
      ∃ s, id = some s ∧ 5 ≤ (goSplit s '/').length := by
  cases id with
  | none => simp [extractResourceGroup]
  | some s =>
    constructor
    · intro h
      refine ⟨s, rfl, ?_⟩
      by_contra hlt
      push_neg at hlt
      have hnone : (goSplit s '/').get? 4 = none :=
        List.get?_eq_none.mpr (by omega)
      rw [show extractResourceGroup (some s) = (goSplit s '/').get? 4 from rfl,
        hnone] at h
      simp at h
    · rintro ⟨t, ht, hlen⟩
      injection ht with ht
      subst ht
      rw [show extractResourceGroup (some s) = (goSplit s '/').get? 4 from rfl]
      rw [Option.isSome_iff_ne_none]
      intro hnone
      rw [List.get?_eq_none] at hnone
      omega

/-- C9: the stop signal is only consulted after a row is streamed, so when
the remote list call returns at least one (well-formed) item, at least one
row is streamed even if the stop signal is already set before the first
item. -/
theorem first_row_always_streamed (env : ListEnv)
    (account : databaseAccountInfo) (databaseName : String)
    (item : MongoDBCollectionGetResults)
    (rest : List MongoDBCollectionGetResults) (rgp acctName : String)
    (hdb : databaseName ≠ "") (hsess : env.session = .ok ())
    (hrg : account.ResourceGroup = some rgp)
    (hname : account.Name = some acctName)
    (hlist : env.listCall = .ok (some (item :: rest)))
    (hhead : (extractResourceGroup item.ID).isSome) :
    1 ≤ (listCosmosDBMongoCollections env account databaseName).rows.length := by
  rw [listCosmos_ok env account databaseName (item :: rest) rgp acctName
    hdb hsess hrg hname hlist]
  exact streamItems_head account.Name databaseName env.rowsRemainingZero
    item rest 0 hhead

/-- Witness for C9: one item returned while the stop signal is already set —
a row is streamed anyway. -/
theorem first_row_always_streamed_witness :
    1 ≤ (listCosmosDBMongoCollections envStopNow acctParent "db1").rows.length :=
  first_row_always_streamed envStopNow acctParent "db1" itemA []
    "parent-rg" "acc1" (by decide) rfl rfl rfl rfl (by decide)

/-- C10: the get hydrate's local precondition only checks the account name's
length and the resource group's non-emptiness; whenever those hold it opens
a session and (if the session succeeds) issues the remote get call, even
when the database name or the collection name is empty. -/
theorem no_short_circuit_on_db_or_name (env : GetEnv)
    (name resourceGroup accountName databaseName : String)
    (hacct : 3 ≤ accountName.utf8ByteSize) (hrg : resourceGroup ≠ "") :
    (getCosmosDBMongoCollection env name resourceGroup
        accountName databaseName).sessionOpened = true ∧
    (env.session = .ok () →
      (getCosmosDBMongoCollection env name resourceGroup
          accountName databaseName).getCallMade = true ∧
      (getCosmosDBMongoCollection env name resourceGroup
          accountName databaseName).getCallArgs =
        some (resourceGroup, accountName, databaseName, name)) := by
  have hrg1 : 1 ≤ resourceGroup.utf8ByteSize := one_le_utf8ByteSize resourceGroup hrg
  unfold getCosmosDBMongoCollection
  rw [if_neg (by omega)]
  cases hsess : env.session with
  | err e => exact ⟨rfl, fun h => nomatch h⟩
  | ok u =>
    cases u
    cases env.getCall with
    | err e => exact ⟨rfl, fun _ => ⟨rfl, rfl⟩⟩
    | ok r => exact ⟨rfl, fun _ => ⟨rfl, rfl⟩⟩

/-- Witness for C10 with both the collection name and the database name
empty: the remote get call is still issued, with those empty arguments. -/
theorem no_short_circuit_on_db_or_name_witness :
    (getCosmosDBMongoCollection getEnvOk "" "rg1" "acc" "").getCallMade = true ∧
    (getCosmosDBMongoCollection getEnvOk "" "rg1" "acc" "").getCallArgs =
      some ("rg1", "acc", "", "") :=
  (no_short_circuit_on_db_or_name getEnvOk "" "rg1" "acc" ""
    (by decide) (by decide)).2 rfl

end SteampipeAzure
